import Mathlib

/-!
Verification of `open_spiel/utils/file.cc` (cross-platform file and
directory utilities).

The C++ source is shallowly embedded:
* `std::string` path and byte-string values become `List Char` (`Str`);
* the process environment becomes a function `String → Option String`
  (`getenv` returns `none` exactly when the variable is unset);
* the filesystem visible through `stat` becomes a function
  `Str → Option Nat` giving the `st_mode` of the entry at a path, `none`
  when no entry exists;
* an open `std::FILE` stream becomes a `FileSt` record (contents plus
  current position), and each `File::` method is a function on it;
* external calls with environment-chosen outcomes
  (`std::filesystem::create_directories`, `mkdir`, partial `fwrite`
  results) are parametrised by their reported outcome.
-/

namespace OpenSpielFile

/-- Byte strings (`std::string`): one `Char` per byte. -/
abbrev Str := List Char

/-! ## Environment and temp-directory resolution (file.cc:232-237) -/

/-- The live process environment: `none` models `getenv` returning `NULL`
(variable unset); `some v` models a set variable, including `some ""`. -/
abbrev Env := String → Option String

/-- Embeds `GetEnv` (file.cc:232-235): `getenv(key)`, falling back to
`default_value` exactly when the result is the null pointer. -/
def GetEnv (env : Env) (key default_value : String) : String :=
  match env key with
  | some v => v
  | none => default_value

/-- Embeds `GetTmpDir` (file.cc:237): `GetEnv("TMPDIR", "/tmp")`, with no
platform conditional around it. -/
def GetTmpDir (env : Env) : String :=
  GetEnv env "TMPDIR" "/tmp"

/-- Written from the spec and from `TestWindowsTmpDirResolution`
(file_test.cc:142-190): the Windows-style precedence chain — first
non-empty of `TMP`, `TEMP`, `LOCALAPPDATA`, then the OS temp-path query
result. The source file contains no such chain; this definition only
records what the spec and the repository's own test demand. -/
def getTmpDirWindowsSpec (env : Env) (osTempPath : String) : String :=
  let tmp := GetEnv env "TMP" ""
  if tmp ≠ "" then tmp
  else
    let temp := GetEnv env "TEMP" ""
    if temp ≠ "" then temp
    else
      let lad := GetEnv env "LOCALAPPDATA" ""
      if lad ≠ "" then lad
      else osTempPath

/-- Environment with `TMPDIR` set to the empty string and nothing else. -/
def envTmpdirEmpty : Env := fun k => if k = "TMPDIR" then some "" else none

/-- Environment with the three Windows temp variables set (non-empty)
and `TMPDIR` unset. -/
def envWindowsTemps : Env := fun k =>
  if k = "TMP" then some "C:\\Temp1"
  else if k = "TEMP" then some "C:\\Temp2"
  else if k = "LOCALAPPDATA" then some "C:\\Local"
  else none

/-! ## stat-based queries (file.cc:150-177) -/

/-- `S_IFMT`: mask of the file-type bits of `st_mode`. -/
def S_IFMT : Nat := 0xF000

/-- `S_IFDIR`: directory type. -/
def S_IFDIR : Nat := 0x4000

/-- `S_IFREG`: regular-file type. -/
def S_IFREG : Nat := 0x8000

/-- `S_IFBLK`: block-device type. -/
def S_IFBLK : Nat := 0x6000

/-- `S_IFSOCK`: socket type. -/
def S_IFSOCK : Nat := 0xC000

/-- The filesystem as seen through `stat`: the `st_mode` of the entry at
each path, `none` when `stat` fails because no entry exists. -/
abbrev Fs := Str → Option Nat

/-- Embeds `Exists` (file.cc:150-153): `stat(path, &info) == 0`. -/
def «Exists» (fs : Fs) (path : Str) : Bool :=
  (fs path).isSome

/-- Embeds `IsDirectory` (file.cc:170-173):
`stat(path, &info) == 0 && info.st_mode & S_IFDIR`. Note the bitwise
`&` test, not a comparison of the masked type field. -/
def IsDirectory (fs : Fs) (path : Str) : Bool :=
  match fs path with
  | some m => m &&& S_IFDIR != 0
  | none => false

/-- Spec-side notion used by C3: an entry exists at the path and its
file type (the `S_IFMT` field of `st_mode`) is directory. -/
def entryIsDirectory (fs : Fs) (path : Str) : Prop :=
  ∃ m, fs path = some m ∧ m &&& S_IFMT = S_IFDIR

/-- A filesystem holding one block device and one socket. -/
def fsBlkSock : Fs := fun q =>
  if q = "/dev/sda".toList then some S_IFBLK
  else if q = "/run/x.sock".toList then some S_IFSOCK
  else none

/-! ## Theorems for C9, C1, C2, C3 -/

/-- C9: `GetEnv(key, default)` returns the default only when the
variable is entirely unset; a variable set to the empty string yields
the empty string, not the default. -/
theorem getEnv_default_iff_unset (env : Env) (k d : String) :
    (env k = none → GetEnv env k d = d) ∧
    (∀ v, env k = some v → GetEnv env k d = v) ∧
    (env k = some "" → GetEnv env k d = "") := by
  refine ⟨fun h => ?_, fun v h => ?_, fun h => ?_⟩ <;>
    simp [GetEnv, h]

/-- Witness for C9 at a concrete environment: `TMPDIR` set to `""`
yields `""`, not the default `/tmp`; an unset key yields the default. -/
theorem getEnv_default_iff_unset_witness :
    GetEnv envTmpdirEmpty "TMPDIR" "/tmp" = "" ∧
    GetEnv envTmpdirEmpty "HOME" "/root" = "/root" :=
  ⟨(getEnv_default_iff_unset envTmpdirEmpty "TMPDIR" "/tmp").2.2 (by decide),
   (getEnv_default_iff_unset envTmpdirEmpty "HOME" "/root").1 (by decide)⟩

/-- C1 counterexample: the claim says that with `TMPDIR` set to the
empty string, `GetTmpDir` returns `"/tmp"`. In the code `getenv` returns
a non-null pointer to an empty string, so `GetEnv` — and hence
`GetTmpDir` — returns `""`, not `"/tmp"`. -/
theorem getTmpDir_empty_tmpdir_counterexample :
    envTmpdirEmpty "TMPDIR" = some "" ∧
    GetTmpDir envTmpdirEmpty = "" ∧ ("" : String) ≠ "/tmp" := by
  refine ⟨by decide, rfl, by decide⟩

/-- C1 amended: `GetTmpDir` returns the value of `TMPDIR` whenever the
variable is set — including when it is set to the empty string — and
returns the fixed default `"/tmp"` only when `TMPDIR` is unset. -/
theorem getTmpDir_posix (env : Env) :
    (∀ v, env "TMPDIR" = some v → GetTmpDir env = v) ∧
    (env "TMPDIR" = none → GetTmpDir env = "/tmp") := by
  refine ⟨fun v h => ?_, fun h => ?_⟩ <;>
    simp [GetTmpDir, GetEnv, h]

/-- Witness for C1 (amended) at concrete environments. -/
theorem getTmpDir_posix_witness :
    GetTmpDir envTmpdirEmpty = "" ∧ GetTmpDir envWindowsTemps = "/tmp" :=
  ⟨(getTmpDir_posix envTmpdirEmpty).1 "" (by decide),
   (getTmpDir_posix envWindowsTemps).2 (by decide)⟩

/-- C2: `GetTmpDir` (file.cc:237) has no Windows branch: with `TMP`,
`TEMP` and `LOCALAPPDATA` all set non-empty and `TMPDIR` unset, the code
returns `"/tmp"`, while the precedence chain demanded by the claim and
by the repository's own `TestWindowsTmpDirResolution` returns the value
of `TMP`. -/
theorem getTmpDir_ignores_windows_vars :
    GetTmpDir envWindowsTemps = "/tmp" ∧
    getTmpDirWindowsSpec envWindowsTemps "C:\\WINDOWS\\TEMP" = "C:\\Temp1" ∧
    ("/tmp" : String) ≠ "C:\\Temp1" := by
  refine ⟨rfl, by decide, by decide⟩

/-- C3: `IsDirectory` tests `st_mode & S_IFDIR` instead of
`(st_mode & S_IFMT) == S_IFDIR`, so it returns `true` for a block
device (`S_IFBLK = 0o060000`) and for a socket (`S_IFSOCK = 0o140000`),
both of which have the `0o040000` bit set although their file type is
not directory. -/
theorem isDirectory_true_on_block_device_and_socket :
    IsDirectory fsBlkSock "/dev/sda".toList = true ∧
    ¬ entryIsDirectory fsBlkSock "/dev/sda".toList ∧
    IsDirectory fsBlkSock "/run/x.sock".toList = true ∧
    ¬ entryIsDirectory fsBlkSock "/run/x.sock".toList := by
  refine ⟨by decide, ?_, by decide, ?_⟩
  · rintro ⟨m, hm, ht⟩
    have h0 : fsBlkSock "/dev/sda".toList = some S_IFBLK := by decide
    rw [h0, Option.some_inj] at hm
    subst hm
    exact absurd ht (by decide)
  · rintro ⟨m, hm, ht⟩
    have h0 : fsBlkSock "/run/x.sock".toList = some S_IFSOCK := by decide
    rw [h0, Option.some_inj] at hm
    subst hm
    exact absurd ht (by decide)

/-! ## Path classifier (file.cc:54-87) -/

/-- Character of a path at an index, with an out-of-range default that
is never a separator, a letter, a colon or a backslash. -/
def charAt : Str → Nat → Char
  | [], _ => ' '
  | c :: _, 0 => c
  | _ :: cs, n + 1 => charAt cs n

/-- The separators recognised by the classifier, as in
`find_first_of("\\/", ...)`. -/
def isSep (c : Char) : Bool := c = '\\' || c = '/'

/-- First index of a separator in a whole list, `none` when there is
no separator. -/
def findSepList : Str → Option Nat
  | [] => none
  | c :: cs => if isSep c then some 0 else (findSepList cs).map (· + 1)

/-- Embeds `std::string::find_first_of("\\/", start)`: first separator
index at or after `start`; `none` models `npos`. -/
def findSepFrom (p : Str) (start : Nat) : Option Nat :=
  (findSepList (p.drop start)).map (· + start)

/-- Embeds `WindowsRootPrefixLengthImpl` compiled without `_WIN32`
(file.cc:78-80): every path has root-prefix length 0. -/
def windowsRootPrefixLengthPosix (_path : Str) : Nat := 0

/-- Embeds `WindowsRootPrefixLengthImpl` compiled under `_WIN32`
(file.cc:54-77): the drive branch keys on `path[1] == ':'`, the UNC
branch on a leading `\\`, each via `find_first_of("\\/", ...)`. -/
def windowsRootPrefixLengthWin (path : Str) : Nat :=
  if 1 < path.length ∧ charAt path 1 = ':' then
    if 2 < path.length ∧ isSep (charAt path 2) = true then 3 else 2
  else if 1 < path.length ∧ charAt path 0 = '\\' ∧ charAt path 1 = '\\' then
    match findSepFrom path 2 with
    | none => path.length
    | some pos =>
      match findSepFrom path (pos + 1) with
      | none => path.length
      | some pos2 => pos2
  else 0

/-- The spec's drive-letter form: a letter, then `:`, then optionally a
separator (the tail after the colon is unconstrained). -/
def isDriveLetterForm (p : Str) : Prop :=
  1 < p.length ∧ (charAt p 0).isAlpha = true ∧ charAt p 1 = ':'

/-- The spec's UNC form: a leading double backslash. -/
def isUncForm (p : Str) : Prop :=
  1 < p.length ∧ charAt p 0 = '\\' ∧ charAt p 1 = '\\'

/-- Written from the spec's words for the UNC case: the server and the
share are the two separator-delimited segments after the leading double
separator; if either segment is unterminated the prefix is the entire
string, otherwise the prefix runs up to the separator terminating the
share segment. -/
def uncSpecLen (p : Str) : Nat :=
  let rest := p.drop 2
  let server := rest.takeWhile (fun c => !isSep c)
  if server.length = rest.length then p.length
  else
    let rest2 := rest.drop (server.length + 1)
    let share := rest2.takeWhile (fun c => !isSep c)
    if share.length = rest2.length then p.length
    else 2 + server.length + 1 + share.length

lemma length_takeWhile_le_self (q : Char → Bool) (l : Str) :
    (l.takeWhile q).length ≤ l.length := by
  induction l with
  | nil => simp
  | cons c cs ih =>
    rw [List.takeWhile_cons]
    by_cases h : q c = true
    · simpa [h] using ih
    · simp [h]

lemma findSepList_eq (l : Str) :
    findSepList l =
      if (l.takeWhile (fun c => !isSep c)).length < l.length
      then some (l.takeWhile (fun c => !isSep c)).length
      else none := by
  induction l with
  | nil => simp [findSepList]
  | cons c cs ih =>
    rw [findSepList, List.takeWhile_cons]
    by_cases h : isSep c
    · simp [h]
    · have hle := length_takeWhile_le_self (fun c => !isSep c) cs
      by_cases hlt : (cs.takeWhile (fun c => !isSep c)).length < cs.length
      · simp [h, ih, hlt, Nat.succ_lt_succ hlt]
      · simp [h, ih, hlt]

/-- The UNC part of the classifier agrees with the spec-worded
segment description. -/
lemma win_unc_eq_spec (p : Str) (h1 : 1 < p.length)
    (h0 : charAt p 0 = '\\') (hb : charAt p 1 = '\\') :
    windowsRootPrefixLengthWin p = uncSpecLen p := by
  have hc : ¬(1 < p.length ∧ charAt p 1 = ':') := by
    rintro ⟨-, hco⟩
    rw [hb] at hco
    exact absurd hco (by decide)
  rw [windowsRootPrefixLengthWin, if_neg hc, if_pos ⟨h1, h0, hb⟩, uncSpecLen]
  have hle := length_takeWhile_le_self (fun c => !isSep c) (p.drop 2)
  by_cases hA :
      ((p.drop 2).takeWhile (fun c => !isSep c)).length < (p.drop 2).length
  · have e2 : findSepFrom p 2 =
        some (((p.drop 2).takeWhile (fun c => !isSep c)).length + 2) := by
      rw [findSepFrom, findSepList_eq, if_pos hA]
      rfl
    have hdd : p.drop (((p.drop 2).takeWhile (fun c => !isSep c)).length + 2 + 1)
        = (p.drop 2).drop (((p.drop 2).takeWhile (fun c => !isSep c)).length + 1) := by
      rw [List.drop_drop]
      congr 1
      omega
    have hle2 := length_takeWhile_le_self (fun c => !isSep c)
      ((p.drop 2).drop (((p.drop 2).takeWhile (fun c => !isSep c)).length + 1))
    by_cases hB :
        (((p.drop 2).drop (((p.drop 2).takeWhile (fun c => !isSep c)).length + 1)).takeWhile
            (fun c => !isSep c)).length <
          ((p.drop 2).drop (((p.drop 2).takeWhile (fun c => !isSep c)).length + 1)).length
    · have e3 : findSepFrom p (((p.drop 2).takeWhile (fun c => !isSep c)).length + 2 + 1) =
          some ((((p.drop 2).drop (((p.drop 2).takeWhile (fun c => !isSep c)).length + 1)).takeWhile
              (fun c => !isSep c)).length +
            (((p.drop 2).takeWhile (fun c => !isSep c)).length + 2 + 1)) := by
        rw [findSepFrom, hdd, findSepList_eq, if_pos hB]
        rfl
      simp only [e2, e3, if_neg (Nat.ne_of_lt hA), if_neg (Nat.ne_of_lt hB)]
      omega
    · have e3 : findSepFrom p (((p.drop 2).takeWhile (fun c => !isSep c)).length + 2 + 1) =
          none := by
        rw [findSepFrom, hdd, findSepList_eq, if_neg hB]
        rfl
      simp only [e2, e3, if_neg (Nat.ne_of_lt hA),
        if_pos (Nat.le_antisymm hle2 (Nat.le_of_not_lt hB))]
  · have e2 : findSepFrom p 2 = none := by
      rw [findSepFrom, findSepList_eq, if_neg hA]
      rfl
    simp only [e2, if_pos (Nat.le_antisymm hle (Nat.le_of_not_lt hA))]

/-- C4 (amended): the POSIX build of the classifier returns 0 for every
input. Under `_WIN32`, any path whose second character is `:` — the
code does not check that the first character is a letter — gets prefix
length 3 when a separator follows, else 2; a path opening with a double
backslash gets the spec's UNC prefix (through server and share, or the
whole string when a segment is unterminated); every other path gets 0. -/
theorem windowsRootPrefixLength_characterization :
    (∀ p : Str, windowsRootPrefixLengthPosix p = 0) ∧
    (∀ p : Str, 1 < p.length → charAt p 1 = ':' →
      (2 < p.length ∧ isSep (charAt p 2) = true ∧ windowsRootPrefixLengthWin p = 3) ∨
      (¬(2 < p.length ∧ isSep (charAt p 2) = true) ∧ windowsRootPrefixLengthWin p = 2)) ∧
    (∀ p : Str, 1 < p.length → charAt p 0 = '\\' → charAt p 1 = '\\' →
      windowsRootPrefixLengthWin p = uncSpecLen p) ∧
    (∀ p : Str, ¬(1 < p.length ∧ charAt p 1 = ':') →
      ¬(1 < p.length ∧ charAt p 0 = '\\' ∧ charAt p 1 = '\\') →
      windowsRootPrefixLengthWin p = 0) := by
  refine ⟨fun p => rfl, fun p hl hco => ?_, win_unc_eq_spec, fun p hd hu => ?_⟩
  · by_cases h2 : 2 < p.length ∧ isSep (charAt p 2) = true
    · exact Or.inl ⟨h2.1, h2.2, by rw [windowsRootPrefixLengthWin, if_pos ⟨hl, hco⟩, if_pos h2]⟩
    · exact Or.inr ⟨h2, by rw [windowsRootPrefixLengthWin, if_pos ⟨hl, hco⟩, if_neg h2]⟩
  · rw [windowsRootPrefixLengthWin, if_neg hd, if_neg hu]

/-- C4 counterexample: `"1:"` is neither a drive-letter form (`'1'` is
not a letter) nor a UNC form, so the claim as stated assigns it prefix
length 0; the Windows classifier keys only on the second character
being `:` and returns 2. -/
theorem windowsRootPrefixLength_claim_counterexample :
    ¬ isDriveLetterForm ['1', ':'] ∧ ¬ isUncForm ['1', ':'] ∧
    windowsRootPrefixLengthWin ['1', ':'] = 2 ∧ (2 : Nat) ≠ 0 := by
  refine ⟨?_, ?_, by decide, by decide⟩
  · rintro ⟨-, ha, -⟩
    exact absurd ha (by decide)
  · rintro ⟨-, ha, -⟩
    exact absurd ha (by decide)

/-- Witness for C4 at concrete paths: a POSIX path, a drive path with
and without the trailing separator, a terminated UNC path, and an
ordinary relative path. -/
theorem windowsRootPrefixLength_characterization_witness :
    windowsRootPrefixLengthPosix "C:\\x".toList = 0 ∧
    windowsRootPrefixLengthWin "C:\\x".toList = 3 ∧
    windowsRootPrefixLengthWin "C:".toList = 2 ∧
    windowsRootPrefixLengthWin "\\\\srv\\share\\x".toList = uncSpecLen "\\\\srv\\share\\x".toList ∧
    uncSpecLen "\\\\srv\\share\\x".toList = 11 ∧
    windowsRootPrefixLengthWin "abc".toList = 0 := by
  have h := windowsRootPrefixLength_characterization
  refine ⟨h.1 _, ?_, ?_,
    h.2.2.1 "\\\\srv\\share\\x".toList (by decide) (by decide) (by decide), by decide,
    h.2.2.2 "abc".toList (by decide) (by decide)⟩
  · rcases h.2.1 "C:\\x".toList (by decide) (by decide) with h3 | h2
    · exact h3.2.2
    · exact absurd ⟨by decide, by decide⟩ h2.1
  · rcases h.2.1 "C:".toList (by decide) (by decide) with h3 | h2
    · exact absurd h3.1 (by decide)
    · exact h2.2

/-! ## File handle (file.cc:91-148)

An open `std::FILE` stream is a byte sequence plus a current position.
`fseek`/`ftell`/`fread` are modelled with their standard semantics;
`fwrite` may report a short count, so it is parametrised by the number
`n` of bytes the OS actually accepts. -/

/-- State of one open stream: contents and current byte offset. -/
structure FileSt where
  data : Str
  pos : Nat
deriving DecidableEq

/-- `ftell`: the current offset. -/
def ftell (f : FileSt) : Nat := f.pos

/-- `fseek(fd, off, SEEK_SET)`. -/
def fseekSet (f : FileSt) (off : Nat) : FileSt := { f with pos := off }

/-- `fseek(fd, 0, SEEK_END)`. -/
def fseekEnd (f : FileSt) : FileSt := { f with pos := f.data.length }

/-- `fread` of up to `count` bytes from the current position: returns
the bytes read and advances the position by their number. -/
def fread (f : FileSt) (count : Nat) : Str × FileSt :=
  let out := (f.data.drop f.pos).take count
  (out, { f with pos := f.pos + out.length })

/-- `fwrite` at the current position, the OS accepting `n` of the
`s.length` bytes offered: returns the count written and the new state
(overwriting in place, zero-filling any gap behind the position). -/
def fwrite (f : FileSt) (s : Str) (n : Nat) : Nat × FileSt :=
  let w := s.take n
  let padded := f.data ++ List.replicate (f.pos - f.data.length) (Char.ofNat 0)
  (w.length,
   { data := padded.take f.pos ++ w ++ padded.drop (f.pos + w.length),
     pos := f.pos + w.length })

/-- Embeds `File::Tell` (file.cc:108). -/
def File.Tell (f : FileSt) : Nat := ftell f

/-- Embeds `File::Seek` (file.cc:109-111): absolute seek, reporting
success. -/
def File.Seek (f : FileSt) (off : Nat) : Bool × FileSt :=
  (true, fseekSet f off)

/-- Embeds `File::Read` (file.cc:113-118): read up to `count` bytes,
resized down to the count actually read. -/
def File.Read (f : FileSt) (count : Nat) : Str × FileSt :=
  fread f count

/-- Embeds `File::Length` (file.cc:130-136): save the position, seek to
the end, read the offset there, restore the saved position. -/
def File.Length (f : FileSt) : Nat × FileSt :=
  let current := ftell f
  let f1 := fseekEnd f
  let length := ftell f1
  let f2 := fseekSet f1 current
  (length, f2)

/-- Embeds `File::ReadContents` (file.cc:120-123): `Seek(0)` then
`Read(Length())`. -/
def File.ReadContents (f : FileSt) : Str × FileSt :=
  let f1 := (File.Seek f 0).2
  let lf := File.Length f1
  File.Read lf.2 lf.1

/-- Embeds `File::Write` (file.cc:125-128): true iff the `fwrite`
count equals the number of bytes offered. -/
def File.Write (f : FileSt) (s : Str) (n : Nat) : Bool × FileSt :=
  let wf := fwrite f s n
  (wf.1 == s.length, wf.2)

/-- A stream freshly opened for writing: empty contents, position 0. -/
def freshFile : FileSt := { data := [], pos := 0 }

/-- Embeds `WriteContentsToFile` (file.cc:144-148): open, `Write`, and
return void — the boolean result of `Write` is discarded. The returned
state stands for the file contents left behind after the destructor's
flush and close. -/
def WriteContentsToFile (_filename _mode : String) (contents : Str) (n : Nat) :
    Unit × FileSt :=
  let f := freshFile
  let wf := File.Write f contents n
  ((), wf.2)

/-! ## Theorems for C6, C7, C8 -/

/-- C7: `Length()` returns the total stream size in bytes and restores
the stream state exactly, so `Tell()` is unchanged by the call. -/
theorem length_returns_size_and_preserves_position (f : FileSt) :
    (File.Length f).1 = f.data.length ∧
    (File.Length f).2 = f ∧
    File.Tell (File.Length f).2 = File.Tell f := by
  refine ⟨rfl, rfl, rfl⟩

/-- C6: writing `s` in full to a fresh file reports success, a
`ReadContents` then yields exactly `s`, and immediately after the write
both `Length()` and `Tell()` equal `s.length`. -/
theorem write_read_roundtrip (s : Str) :
    (File.Write freshFile s s.length).1 = true ∧
    (File.ReadContents (File.Write freshFile s s.length).2).1 = s ∧
    (File.Length (File.Write freshFile s s.length).2).1 = s.length ∧
    File.Tell (File.Write freshFile s s.length).2 = s.length := by
  have hw : File.Write freshFile s s.length =
      (true, { data := s, pos := s.length }) := by
    simp [File.Write, fwrite, freshFile]
  rw [hw]
  refine ⟨rfl, ?_, by simp [File.Length, fseekEnd, ftell], by simp [File.Tell, ftell]⟩
  simp [File.ReadContents, File.Seek, File.Length, File.Read, fread,
    fseekSet, fseekEnd, ftell]

/-- C8: `WriteContentsToFile` discards the underlying `Write` result:
for every filename, mode, contents and OS-accepted count `n ≤ len`, it
returns `()` — while the discarded `Write` result is `false` exactly
when the write was partial, so a failed write is never reported. -/
theorem writeContentsToFile_discards_result (fn md : String) (contents : Str)
    (n : Nat) (hn : n ≤ contents.length) :
    (WriteContentsToFile fn md contents n).1 = () ∧
    ((File.Write freshFile contents n).1 = false ↔ n ≠ contents.length) := by
  refine ⟨rfl, ?_⟩
  have hlen : (contents.take n).length = n := by
    simp [List.length_take, Nat.min_eq_left hn]
  simp [File.Write, fwrite, freshFile, hlen]

/-- Witness for C8: a two-byte write of which the OS accepts one byte
is a failed write (`Write` would report `false`), yet
`WriteContentsToFile` returns `()`. -/
theorem writeContentsToFile_discards_result_witness :
    (WriteContentsToFile "f.txt" "w" "ab".toList 1).1 = () ∧
    ((File.Write freshFile "ab".toList 1).1 = false ↔ 1 ≠ ("ab".toList).length) :=
  writeContentsToFile_discards_result "f.txt" "w" "ab".toList 1 (by decide)

/-! ## Directory creation (file.cc:175-222)

`Mkdirs` first tries `std::filesystem::create_directories`; that call
is external, so it enters the embedding through its reported outcome —
`created` (the return value) and `ecFail` (whether the error code was
set) — together with its effect on the filesystem when it created
something. The fallback loop then works through `stat` and `mkdir`;
`mkdir` success is decided by the environment oracle `allow`. -/

/-- Model of `std::filesystem::is_directory`: the file-type field of
the entry equals directory. -/
def fsIsDirectory (fs : Fs) (path : Str) : Bool :=
  match fs path with
  | some m => m &&& S_IFMT == S_IFDIR
  | none => false

/-- Model of a successful `mkdir(sub_path, mode)`: a directory entry
appears at `sub_path` with the requested permission bits. -/
def mkdirFs (fs : Fs) (path : Str) (mode : Nat) : Fs := fun q =>
  if q = path then some (S_IFDIR ||| (mode &&& 0o777)) else fs q

/-- Model of `chmod(path, mode)`: replaces the permission bits of an
existing entry, best effort. -/
def chmodFs (fs : Fs) (path : Str) (mode : Nat) : Fs := fun q =>
  if q = path then (fs q).map (fun m => (m &&& S_IFMT) ||| (mode &&& 0o7777))
  else fs q

/-- Model of the effect of a successful
`std::filesystem::create_directories(path)`: the path and every
separator-delimited ancestor that was missing become directories. -/
def createDirsFs (fs : Fs) (path : Str) (mode : Nat) : Fs := fun q =>
  if (q = path ∨ (q.isPrefixOf path ∧ isSep (charAt path q.length) = true)) ∧
      (fs q).isNone
  then some (S_IFDIR ||| (mode &&& 0o777)) else fs q

/-- Embeds the fallback loop of `Mkdirs` (file.cc:202-221), indexed by
fuel; `none` is returned only when the fuel runs out before the
separator search reaches `npos`. Each iteration moves `pos` to the next
separator strictly past it, takes the sub-path up to that separator
(the whole path once the search fails), skips it if it is an existing
directory, fails on an existing non-directory, and otherwise attempts
`mkdir` on it. -/
def mkdirsLoop (allow : Str → Bool) (mode : Nat) (path : Str) :
    Nat → Nat → Fs → Option (Bool × Fs)
  | 0, _, _ => none
  | fuel + 1, pos, fs =>
    match findSepFrom path (pos + 1) with
    | none =>
      if path.isEmpty then some (true, fs)
      else
        match fs path with
        | some m => if m &&& S_IFDIR == 0 then some (false, fs) else some (true, fs)
        | none =>
          if allow path then some (true, mkdirFs fs path mode) else some (false, fs)
    | some pos2 =>
      if (path.take pos2).isEmpty then mkdirsLoop allow mode path fuel pos2 fs
      else
        match fs (path.take pos2) with
        | some m =>
          if m &&& S_IFDIR == 0 then some (false, fs)
          else mkdirsLoop allow mode path fuel pos2 fs
        | none =>
          if allow (path.take pos2) then
            mkdirsLoop allow mode path fuel pos2 (mkdirFs fs (path.take pos2) mode)
          else some (false, fs)

/-- Embeds `Mkdirs` (file.cc:179-222), POSIX build (the best-effort
`chmod` after a successful primary creation is unconditional there).
`rootLen` is the root-prefix function the build selects;
`created`/`ecFail` report the outcome of the external
`create_directories` call. -/
def Mkdirs (rootLen : Str → Nat) (allow : Str → Bool) (created ecFail : Bool)
    (fs : Fs) (path : Str) (mode : Nat) : Bool × Fs :=
  if path.isEmpty then (false, fs)
  else if created then (true, chmodFs (createDirsFs fs path mode) path mode)
  else if !ecFail && «Exists» fs path then (fsIsDirectory fs path, fs)
  else (mkdirsLoop allow mode path (path.length + 1) (rootLen path) fs).getD (false, fs)

/-! ## Facts about the separator search -/

lemma charAt_drop (l : Str) (n i : Nat) : charAt (l.drop n) i = charAt l (n + i) := by
  induction n generalizing l with
  | zero => simp [List.drop]
  | succ n ih =>
    cases l with
    | nil => rfl
    | cons c cs =>
      rw [List.drop_succ_cons, Nat.succ_add]
      exact ih cs

lemma findSepList_some_facts (l : Str) (i : Nat) (h : findSepList l = some i) :
    i < l.length ∧ isSep (charAt l i) = true := by
  induction l generalizing i with
  | nil => exact absurd h (by simp [findSepList])
  | cons c cs ih =>
    rw [findSepList] at h
    by_cases hc : isSep c
    · rw [if_pos hc] at h
      cases h
      exact ⟨Nat.succ_pos _, hc⟩
    · rw [if_neg hc] at h
      cases hfs : findSepList cs with
      | none => rw [hfs] at h; exact absurd h (by simp)
      | some j =>
        rw [hfs] at h
        simp only [Option.map_some', Option.some_inj] at h
        obtain ⟨hj, hsep⟩ := ih j hfs
        subst h
        exact ⟨Nat.succ_lt_succ hj, hsep⟩

lemma findSepFrom_some_facts (p : Str) (start j : Nat)
    (h : findSepFrom p start = some j) :
    start ≤ j ∧ j < p.length ∧ isSep (charAt p j) = true := by
  rw [findSepFrom] at h
  cases hfs : findSepList (p.drop start) with
  | none => rw [hfs] at h; exact absurd h (by simp)
  | some i =>
    rw [hfs] at h
    simp only [Option.map_some', Option.some_inj] at h
    obtain ⟨hi, hsep⟩ := findSepList_some_facts _ _ hfs
    rw [List.length_drop] at hi
    rw [charAt_drop] at hsep
    subst h
    exact ⟨Nat.le_add_left _ _, by omega, by rwa [Nat.add_comm]⟩

/-! ## Termination of the fallback loop (C10) -/

lemma mkdirsLoop_isSome (allow : Str → Bool) (mode : Nat) (path : Str) :
    ∀ (fuel pos : Nat) (fs : Fs), path.length - pos + 1 ≤ fuel →
      (mkdirsLoop allow mode path fuel pos fs).isSome = true := by
  intro fuel
  induction fuel with
  | zero => intro pos fs h; omega
  | succ fuel ih =>
    intro pos fs h
    rw [mkdirsLoop]
    cases hf : findSepFrom path (pos + 1) with
    | none =>
      by_cases he : path.isEmpty
      · simp [he]
      · cases hfp : fs path with
        | some m => simp [he, hfp]; split <;> simp
        | none => simp [he, hfp]; split <;> simp
    | some pos2 =>
      obtain ⟨hge, hlt, -⟩ := findSepFrom_some_facts path (pos + 1) pos2 hf
      have hb : path.length - pos2 + 1 ≤ fuel := by omega
      by_cases he : (path.take pos2).isEmpty
      · simpa [he] using ih pos2 fs hb
      · cases hfp : fs (path.take pos2) with
        | some m =>
          simp only [he, if_false, hfp, Bool.false_eq_true]
          split
          · simp
          · exact ih pos2 fs hb
        | none =>
          simp only [he, if_false, hfp, Bool.false_eq_true]
          split
          · exact ih pos2 (mkdirFs fs (path.take pos2) mode) hb
          · simp

/-- C10: inside the fallback loop of `Mkdirs` the separator-search
position strictly increases on each iteration (any hit of
`find_first_of` from `pos + 1` lies strictly past `pos`), and fuel
`path.length + 1` suffices from any start position and any filesystem,
so the loop — and with it `Mkdirs` — is a total function of its
arguments. -/
theorem mkdirs_fallback_terminates :
    (∀ (path : Str) (pos pos2 : Nat),
      findSepFrom path (pos + 1) = some pos2 → pos < pos2) ∧
    (∀ (allow : Str → Bool) (mode : Nat) (path : Str) (pos : Nat) (fs : Fs),
      (mkdirsLoop allow mode path (path.length + 1) pos fs).isSome = true) := by
  constructor
  · intro path pos pos2 h
    have := (findSepFrom_some_facts path (pos + 1) pos2 h).1
    omega
  · intro allow mode path pos fs
    exact mkdirsLoop_isSome allow mode path (path.length + 1) pos fs (by omega)

/-- Witness for C10: the search past position 0 of `"a/b"` lands on the
separator at index 1, and the loop at fuel `length + 1` completes on a
concrete path over an empty filesystem. -/
theorem mkdirs_fallback_terminates_witness :
    (0 : Nat) < 1 ∧
    (mkdirsLoop (fun _ => true) 511 "a/b".toList
      ("a/b".toList.length + 1) 0 (fun _ => none)).isSome = true :=
  ⟨mkdirs_fallback_terminates.1 "a/b".toList 0 1 (by decide),
   mkdirs_fallback_terminates.2 (fun _ => true) 511 "a/b".toList 0 (fun _ => none)⟩

/-! ## Idempotence of Mkdirs on existing targets (C5) -/

lemma dir_type_dir_bit (m : Nat) (h : m &&& S_IFMT = S_IFDIR) :
    (m &&& S_IFDIR == 0) = false := by
  have hmt : S_IFMT.testBit 14 = true := by decide
  have hdt : S_IFDIR.testBit 14 = true := by decide
  have h14 : m.testBit 14 = true := by
    have hh := congrArg (fun x => Nat.testBit x 14) h
    simp only [Nat.testBit_land] at hh
    rw [hmt, hdt, Bool.and_true] at hh
    exact hh
  have hne : m &&& S_IFDIR ≠ 0 := by
    intro h0
    have hh := congrArg (fun x => Nat.testBit x 14) h0
    simp only [Nat.testBit_land, Nat.zero_testBit] at hh
    rw [h14, hdt, Bool.true_and] at hh
    exact absurd hh (by decide)
  simpa [beq_eq_false_iff_ne] using hne

lemma reg_type_no_dir_bit (m : Nat) (h : m &&& S_IFMT = S_IFREG) :
    (m &&& S_IFDIR == 0) = true := by
  have hmt : S_IFMT.testBit 14 = true := by decide
  have hrt : S_IFREG.testBit 14 = false := by decide
  have h14 : m.testBit 14 = false := by
    have hh := congrArg (fun x => Nat.testBit x 14) h
    simp only [Nat.testBit_land] at hh
    rw [hmt, hrt, Bool.and_true] at hh
    exact hh
  have hz : m &&& S_IFDIR = 0 := by
    apply Nat.eq_of_testBit_eq
    intro i
    rw [Nat.testBit_land, Nat.zero_testBit]
    by_cases hi : i = 14
    · subst hi
      simp [h14]
    · have : S_IFDIR.testBit i = false := by
        have h2 : S_IFDIR = 2 ^ 14 := by decide
        rw [h2]
        exact Nat.testBit_two_pow_of_ne (fun hc => hi hc.symm)
      simp [this]
  simp [hz]

/-- On a path whose separator-delimited ancestors all exist as
directories, the fallback loop reaches the full path without mutating
the filesystem and answers according to the entry found there. -/
lemma mkdirsLoop_existing (allow : Str → Bool) (mode : Nat) (path : Str) (fs : Fs)
    (hne : path.isEmpty = false)
    (hanc : ∀ k, k < path.length → isSep (charAt path k) = true →
      ∃ m, fs (path.take k) = some m ∧ m &&& S_IFMT = S_IFDIR) :
    ∀ (fuel pos : Nat), path.length - pos + 1 ≤ fuel →
      (∀ md, fs path = some md → md &&& S_IFMT = S_IFDIR →
        mkdirsLoop allow mode path fuel pos fs = some (true, fs)) ∧
      (∀ mf, fs path = some mf → mf &&& S_IFMT = S_IFREG →
        mkdirsLoop allow mode path fuel pos fs = some (false, fs)) := by
  intro fuel
  induction fuel with
  | zero => intro pos h; omega
  | succ fuel ih =>
    intro pos h
    constructor
    · intro md hmd hmt
      rw [mkdirsLoop]
      cases hf : findSepFrom path (pos + 1) with
      | none => simp [hne, hmd, dir_type_dir_bit md hmt]
      | some pos2 =>
        obtain ⟨hge, hlt, hsep⟩ := findSepFrom_some_facts path (pos + 1) pos2 hf
        obtain ⟨m, hm, hmdir⟩ := hanc pos2 hlt hsep
        have hnq : (path.take pos2).isEmpty = false := by
          rw [Bool.eq_false_iff]
          intro hq
          rw [List.isEmpty_iff_length_eq_zero, List.length_take] at hq
          rw [Bool.eq_false_iff, Ne, List.isEmpty_iff_length_eq_zero] at hne
          omega
        simp only [hnq, Bool.false_eq_true, if_false, hm, dir_type_dir_bit m hmdir]
        exact (ih pos2 (by omega)).1 md hmd hmt
    · intro mf hmf hmt
      rw [mkdirsLoop]
      cases hf : findSepFrom path (pos + 1) with
      | none => simp [hne, hmf, reg_type_no_dir_bit mf hmt]
      | some pos2 =>
        obtain ⟨hge, hlt, hsep⟩ := findSepFrom_some_facts path (pos + 1) pos2 hf
        obtain ⟨m, hm, hmdir⟩ := hanc pos2 hlt hsep
        have hnq : (path.take pos2).isEmpty = false := by
          rw [Bool.eq_false_iff]
          intro hq
          rw [List.isEmpty_iff_length_eq_zero, List.length_take] at hq
          rw [Bool.eq_false_iff, Ne, List.isEmpty_iff_length_eq_zero] at hne
          omega
        simp only [hnq, Bool.false_eq_true, if_false, hm, dir_type_dir_bit m hmdir]
        exact (ih pos2 (by omega)).2 mf hmf hmt

/-- C5: on a non-empty path whose target fully exists — every
separator-delimited ancestor is a directory — `Mkdirs` is a no-op:
it returns `true` and leaves the filesystem unchanged when the existing
entry is a directory, returns `false` and leaves the filesystem
unchanged when it is a regular file, and hence a second call returns
the same result on the same state. `created` is `false` because
`create_directories` creates nothing when the target already exists;
`ecFail` is arbitrary, covering both the report-no-error path
(file.cc:194-196) and the fallback loop (file.cc:202-221). -/
theorem mkdirs_on_existing (rootLen : Str → Nat) (allow : Str → Bool)
    (ecFail : Bool) (fs : Fs) (path : Str) (mode : Nat)
    (hne : path.isEmpty = false)
    (hanc : ∀ k, k < path.length → isSep (charAt path k) = true →
      ∃ m, fs (path.take k) = some m ∧ m &&& S_IFMT = S_IFDIR) :
    (∀ md, fs path = some md → md &&& S_IFMT = S_IFDIR →
      Mkdirs rootLen allow false ecFail fs path mode = (true, fs) ∧
      Mkdirs rootLen allow false ecFail
        (Mkdirs rootLen allow false ecFail fs path mode).2 path mode = (true, fs)) ∧
    (∀ mf, fs path = some mf → mf &&& S_IFMT = S_IFREG →
      Mkdirs rootLen allow false ecFail fs path mode = (false, fs) ∧
      Mkdirs rootLen allow false ecFail
        (Mkdirs rootLen allow false ecFail fs path mode).2 path mode = (false, fs)) := by
  have main :
      (∀ md, fs path = some md → md &&& S_IFMT = S_IFDIR →
        Mkdirs rootLen allow false ecFail fs path mode = (true, fs)) ∧
      (∀ mf, fs path = some mf → mf &&& S_IFMT = S_IFREG →
        Mkdirs rootLen allow false ecFail fs path mode = (false, fs)) := by
    constructor
    · intro md hmd hmt
      rw [Mkdirs]
      cases ecFail with
      | false =>
        simp [hne, «Exists», hmd, fsIsDirectory, hmt]
      | true =>
        simp only [hne, Bool.false_eq_true, if_false, Bool.not_true, Bool.false_and,
          «Exists», hmd]
        rw [(mkdirsLoop_existing allow mode path fs hne hanc
          (path.length + 1) (rootLen path) (by omega)).1 md hmd hmt]
        rfl
    · intro mf hmf hmt
      rw [Mkdirs]
      cases ecFail with
      | false =>
        have : (mf &&& S_IFMT == S_IFDIR) = false := by
          rw [hmt]; decide
        simp [hne, «Exists», hmf, fsIsDirectory, this]
      | true =>
        simp only [hne, Bool.false_eq_true, if_false, Bool.not_true, Bool.false_and,
          «Exists», hmf]
        rw [(mkdirsLoop_existing allow mode path fs hne hanc
          (path.length + 1) (rootLen path) (by omega)).2 mf hmf hmt]
        rfl
  refine ⟨fun md hmd hmt => ?_, fun mf hmf hmt => ?_⟩
  · have h1 := main.1 md hmd hmt
    exact ⟨h1, by rw [h1]; exact main.1 md hmd hmt⟩
  · have h1 := main.2 mf hmf hmt
    exact ⟨h1, by rw [h1]; exact main.2 mf hmf hmt⟩

/-- Filesystem with directory `"a"` and regular file `"a/b"`. -/
def fsDirFile : Fs := fun q =>
  if q = "a/b".toList then some (S_IFREG ||| 0o644)
  else if q = "a".toList then some (S_IFDIR ||| 0o755)
  else none

/-- Witness for C5: on `fsDirFile` the fully-existing target `"a/b"` is
a regular file, so `Mkdirs` (with the primary strategy failing with an
error, exercising the fallback loop) returns `false` and leaves the
filesystem unchanged, twice over. -/
theorem mkdirs_on_existing_witness :
    Mkdirs (fun _ => 0) (fun _ => false) false true fsDirFile "a/b".toList 511
        = (false, fsDirFile) ∧
    Mkdirs (fun _ => 0) (fun _ => false) false true
        (Mkdirs (fun _ => 0) (fun _ => false) false true fsDirFile "a/b".toList 511).2
        "a/b".toList 511 = (false, fsDirFile) := by
  refine (mkdirs_on_existing (fun _ => 0) (fun _ => false) true fsDirFile
    "a/b".toList 511 (by decide) ?_).2 (S_IFREG ||| 0o644) (by decide) (by decide)
  intro k hk hsep
  have hl : ("a/b".toList).length = 3 := by decide
  rw [hl] at hk
  interval_cases k
  · exact absurd hsep (by decide)
  · exact ⟨S_IFDIR ||| 0o755, by decide, by decide⟩
  · exact absurd hsep (by decide)

end OpenSpielFile
